import Mathlib

/-!
Verification development for the seedtone generative music engine
(`src/lib/audio/generative/engine.ts`).

The engine is shallowly embedded: the mutable `GenerativeEngine` class
becomes an explicit `Engine` state record, each method becomes a state
transformer, and every `Math.random()` draw consumed by a method is passed
in explicitly as a rational number in `[0,1)`.  Sound emission (Tone.js
trigger calls) is modelled as the pure data the engine would hand to the
sampler (the note list / note option returned next to the new state); the
audio graph itself is out of scope.

Constants imported by the engine from `@/lib/preferences/types` and from
`./chords` are not part of the available sources; they are modelled from
the spec and are marked `Modelled from the spec:` in their doc comments.
Everything else is translated directly from `engine.ts`.
-/

namespace Seedtone

/-- Noise colour selector, from `NoiseType` in `generative/engine.ts`. -/
inductive NoiseType
  | off
  | white
  | pink
  | brown
deriving DecidableEq, Repr

/-- Tempo arm identifiers, from `TempoArm` in `@/lib/preferences/types`
(arm names follow the lofi genre config in the repository: focus plus four
BPM buckets). -/
inductive TempoArm
  | focus
  | t60to70
  | t70to80
  | t80to90
  | t90to100
deriving DecidableEq, Repr

/-- Energy arm identifiers (low / medium / high, as in the repository's
bandit defaults). -/
inductive EnergyArm
  | low
  | medium
  | high
deriving DecidableEq, Repr

/-- Valence arm identifiers (sad / neutral / happy, as in the repository's
bandit defaults). -/
inductive ValenceArm
  | sad
  | neutral
  | happy
deriving DecidableEq, Repr

/-- Danceability arm identifiers (chill / groovy / bouncy, as in the
repository's bandit defaults). -/
inductive DanceabilityArm
  | chill
  | groovy
  | bouncy
deriving DecidableEq, Repr

/-- The four arm selections applied together, from `GenerationParams` in
`@/lib/preferences/types`. -/
structure GenerationParams where
  tempo : TempoArm
  energy : EnergyArm
  danceability : DanceabilityArm
  valence : ValenceArm
deriving DecidableEq, Repr

/-- A configured BPM range for one tempo arm. -/
structure TempoRange where
  min : ℤ
  max : ℤ
deriving DecidableEq, Repr

/-- Modelled from the spec: `TEMPO_RANGES` lives in `@/lib/preferences/types`,
which is not among the available sources.  The spec says each tempo arm has a
configured `[min,max]` target-feel range; the values follow the lofi genre
tempo config present in the repository (focus 60-72, then 70-78, 78-86,
86-94, 94-102). -/
def TEMPO_RANGES : TempoArm → TempoRange
  | .focus => ⟨60, 72⟩
  | .t60to70 => ⟨70, 78⟩
  | .t70to80 => ⟨78, 86⟩
  | .t80to90 => ⟨86, 94⟩
  | .t90to100 => ⟨94, 102⟩

/-- Parameters one energy arm maps to. -/
structure EnergyParams where
  density : ℚ
  velocity : ℚ
  instruments : ℤ
deriving DecidableEq, Repr

/-- Modelled from the spec: `ENERGY_PARAMS` lives in `@/lib/preferences/types`,
which is not among the available sources.  The spec says the energy arm sets
melody density, note velocity and an instrument count, and that lower arms
categorically disable higher-instrument-count voices; `applyEnergy` in
`engine.ts` disables the kick when `instruments < 3` and the snare when
`instruments < 4`, so the lowest tier carries instrument count 2 (both
disabled), the middle 3 (snare disabled) and the highest 4 (all enabled). -/
def ENERGY_PARAMS : EnergyArm → EnergyParams
  | .low => ⟨0.2, 0.5, 2⟩
  | .medium => ⟨0.35, 0.7, 3⟩
  | .high => ⟨0.5, 0.9, 4⟩

/-- Parameters one danceability arm maps to. -/
structure DanceabilityParams where
  swing : ℚ
  kickEmphasis : ℚ
  hihatActivity : ℚ
deriving DecidableEq, Repr

/-- Modelled from the spec: `DANCEABILITY_PARAMS` lives in
`@/lib/preferences/types`, which is not among the available sources.  The
spec says the danceability arm sets the global swing amount, the kick
emphasis bias and the hat activity bias, with swing inside the genre swing
window `[0.45, 0.65]`. -/
def DANCEABILITY_PARAMS : DanceabilityArm → DanceabilityParams
  | .chill => ⟨0.45, 0.5, 0.3⟩
  | .groovy => ⟨0.55, 0.65, 0.5⟩
  | .bouncy => ⟨0.65, 0.8, 0.7⟩

/-- Parameters one valence arm maps to. -/
structure ValenceParams where
  useMinor : Bool
deriving DecidableEq, Repr

/-- Modelled from the spec: `VALENCE_PARAMS` lives in
`@/lib/preferences/types`, which is not among the available sources.  The
spec says the valence arm sets a boolean preference for minor-key
regeneration. -/
def VALENCE_PARAMS : ValenceArm → ValenceParams
  | .sad => ⟨true⟩
  | .neutral => ⟨false⟩
  | .happy => ⟨false⟩

/-- A chord of the progression: its signed semitone offset from the key's
tonic, from `Chord` in `./chords` (the voicing operation is separate,
see `Chord.generateVoicing`). -/
structure Chord where
  semitoneDist : ℤ
deriving DecidableEq, Repr

/-- Modelled from the spec: `INTERVAL_WEIGHTS` lives in `./chords`, which is
not among the available sources.  The spec requires a weight table over step
distances where weight decreases with distance (near steps favoured); the
melodic walk slices at most its first 8 entries. -/
def INTERVAL_WEIGHTS : List ℚ := [1, 1/2, 1/4, 1/8, 1/16, 1/32, 1/64, 1/128]

/-- Modelled from the spec: `MAJOR_KEYS` lives in `./chords`, which is not
among the available sources; a non-empty list of tonic pitch-class names. -/
def MAJOR_KEYS : List String := ["C", "Db", "D", "Eb", "E", "F", "Gb", "G", "Ab", "A", "Bb", "B"]

/-- Modelled from the spec: `MINOR_KEYS` lives in `./chords`, which is not
among the available sources; a non-empty list of tonic pitch-class names. -/
def MINOR_KEYS : List String := ["A", "Bb", "B", "C", "Db", "D", "Eb", "E", "F", "Gb", "G", "Ab"]

/-- Modelled from the spec: `FIVE_TO_FIVE` lives in `./chords`, which is not
among the available sources.  The spec requires a fixed ascending interval
pattern spanning roughly two octaves, applied from the tonic to build the
scale. -/
def FIVE_TO_FIVE : List ℤ := [0, 2, 4, 5, 7, 9, 11, 12, 14, 16, 17, 19, 21, 23, 24]

/-- Pitch arithmetic of `Tone.Frequency(root).transpose(semi)` rendered as a
note name.  The rendering is opaque but injective in the pair (root, offset),
which is all the engine's state logic observes. -/
def transposeNote (root : String) (semi : ℤ) : String :=
  root ++ "|" ++ toString semi

/-- Scale construction from `generateProgression` in `engine.ts`:
`Tone.Frequency(newKey + '5').harmonize(FIVE_TO_FIVE)` rendered to note
names, one pitch per interval of `FIVE_TO_FIVE`. -/
def buildScale (key : String) : List String :=
  FIVE_TO_FIVE.map (transposeNote (key ++ "5"))

/-- Modelled from the spec: the chord voicing operation lives in `./chords`,
which is not among the available sources.  The spec requires a pure function
of the chord and voice count returning that many semitone intervals to stack
on a root. -/
def Chord.generateVoicing (c : Chord) (n : Nat) : List ℤ :=
  (List.range n).map (fun i => c.semitoneDist % 12 + 3 * (i : ℤ))

/-- Diatonic degree offsets used by the modelled progression generator. -/
def DEGREE_OFFSETS : List ℤ := [0, 2, 4, 5, 7, 9, 11]

/-- Modelled from the spec: `ChordProgression.generate` lives in `./chords`,
which is not among the available sources.  The spec requires a non-empty
fixed-length chord sequence whose degrees map onto valid offsets from the
tonic; the internal harmonic weighting is an explicit free implementation
choice (spec section 9), so each chord degree is drawn here through one
uniform draw from the supplied list. -/
def ChordProgression.generate (n : Nat) (ds : List ℚ) : List Chord :=
  (List.range n).map (fun i => ⟨DEGREE_OFFSETS.getD (Int.toNat ⌊ds.getD i 0 * 7⌋) 0⟩)

/-- The shape returned by `getState()`, from `GenerativeState` in
`engine.ts`. -/
structure GenerativeState where
  isPlaying : Bool
  isLoaded : Bool
  key : String
  progression : List Chord
  progressIndex : Nat
  bpm : ℤ
  noiseType : NoiseType
  noiseVolume : ℚ
deriving DecidableEq, Repr

/-- Full engine state: the `state` record plus the private fields of
`GenerativeEngine`.  The `piano`/`kick`/`snare`/`hat` sampler references are
modelled by presence flags; `transportBpm` and `transportSwing` model the
global transport registers; `sectionCount` is the spec-level monotonic
section counter (spec section 3, `SectionCounters`) that ticks exactly when
`transition` runs -- the source keeps no explicit variable for it, a
transition being the observable event; `initCount` counts how many times the
`_initialize` load body has been started. -/
structure Engine where
  state : GenerativeState
  pianoLoaded : Bool
  kickLoaded : Bool
  snareLoaded : Bool
  hatLoaded : Bool
  scale : List String
  scalePos : ℤ
  melodyDensity : ℚ
  melodyOff : Bool
  kickOff : Bool
  snareOff : Bool
  hatOff : Bool
  currentParams : Option GenerationParams
  currentVelocity : ℚ
  preferMinor : Bool
  hihatActivity : ℚ
  kickEmphasis : ℚ
  barCount : Nat
  sectionLength : Nat
  sectionCount : Nat
  transportBpm : ℤ
  transportSwing : ℚ
  loadPromise : Option Nat
  initCount : Nat
deriving DecidableEq, Repr

/-- Initial field values of `GenerativeEngine` as declared in `engine.ts`. -/
def initEngine : Engine where
  state := {
    isPlaying := false
    isLoaded := false
    key := "C"
    progression := []
    progressIndex := 0
    bpm := 156
    noiseType := .pink
    noiseVolume := 0.3 }
  pianoLoaded := false
  kickLoaded := false
  snareLoaded := false
  hatLoaded := false
  scale := []
  scalePos := 0
  melodyDensity := 0.33
  melodyOff := false
  kickOff := false
  snareOff := false
  hatOff := false
  currentParams := none
  currentVelocity := 0.7
  preferMinor := false
  hihatActivity := 0.5
  kickEmphasis := 0.65
  barCount := 0
  sectionLength := 32
  sectionCount := 0
  transportBpm := 156
  transportSwing := 0
  loadPromise := none
  initCount := 0

/-- Random draws consumed by the per-bar mute re-roll in `nextChord`. -/
structure RollDraws where
  kick : ℚ
  snare : ℚ
  hat : ℚ
  density : ℚ
  melody : ℚ
deriving DecidableEq, Repr

/-- Random draws consumed by `generateProgression`. -/
structure GenDraws where
  keyDraw : ℚ
  progDraws : List ℚ
  posDraw : ℚ
deriving DecidableEq, Repr

/-- Random draws consumed by `transition`. -/
structure TransDraws where
  gen : GenDraws
  density : ℚ
  kick : ℚ
  snare : ℚ
  hat : ℚ
  melody : ℚ
  lenDraw : ℚ
deriving DecidableEq, Repr

/-- Random draws consumed by `playMelody` (the density gate, the direction
choice, and the inverse-CDF step draw). -/
structure MelodyDraws where
  gate : ℚ
  dir : ℚ
  step : ℚ
deriving DecidableEq, Repr

/-- From `generateProgression` in `engine.ts`: pick a fresh key from the
minor or major list per `preferMinor`, rebuild the scale, generate a fresh
8-chord progression, reset the progression index to 0 and the scale position
to `Math.floor(Math.random() * newScale.length)`. -/
def generateProgression (e : Engine) (g : GenDraws) : Engine :=
  let keys := if e.preferMinor then MINOR_KEYS else MAJOR_KEYS
  let newKey := keys.getD (Int.toNat ⌊g.keyDraw * keys.length⌋) "C"
  let newScale := buildScale newKey
  let newProgression := ChordProgression.generate 8 g.progDraws
  { e with
      state := { e.state with
        key := newKey
        progression := newProgression
        progressIndex := 0 }
      scale := newScale
      scalePos := ⌊g.posDraw * (newScale.length : ℚ)⌋ }

/-- Section length candidates, from `transition` in `engine.ts`. -/
def SECTION_LENGTHS : List Nat := [16, 20, 24, 28, 32, 48]

/-- From `transition` in `engine.ts`: regenerate key/scale/progression,
re-roll melody density and all mute flags with the transition-specific base
probabilities, and re-roll the section length from `SECTION_LENGTHS` (the
audible master-filter sweep touches only the audio graph).  The spec-level
`sectionCount` ghost counter is incremented here. -/
def transition (e : Engine) (t : TransDraws) : Engine :=
  let e1 := generateProgression e t.gen
  { e1 with
      melodyDensity := 0.2 + t.density * 0.5
      kickOff := decide (t.kick < 0.13)
      snareOff := decide (t.snare < 0.17)
      hatOff := decide (t.hat < 0.22)
      melodyOff := decide (t.melody < 0.25)
      sectionLength := SECTION_LENGTHS.getD (Int.toNat ⌊t.lenDraw * 6⌋) 0
      sectionCount := e1.sectionCount + 1 }

/-- Index advance computed at the top of `nextChord`: wrap to 0 from the
last chord, else increment.  The comparison is against
`progression.length - 1` computed in ℤ, as JS number arithmetic does. -/
def advanceIndex (e : Engine) : Nat :=
  if (e.state.progressIndex : ℤ) = (e.state.progression.length : ℤ) - 1 then 0
  else e.state.progressIndex + 1

/-- The per-bar probabilistic re-roll block of `nextChord`: when the current
progression index is 0, re-roll the kick/snare/hat mutes, the melody density
and the melody mute. -/
def rollMutes (e : Engine) (d : RollDraws) : Engine :=
  if e.state.progressIndex = 0 then
    { e with
        kickOff := decide (d.kick < 0.15)
        snareOff := decide (d.snare < 0.2)
        hatOff := decide (d.hat < 0.25)
        melodyDensity := d.density * 0.3 + 0.2
        melodyOff := decide (d.melody < 0.25) }
  else e

/-- From `nextChord` in `engine.ts`: compute the circular next index, run the
per-bar re-roll if the current index is 0, store the next index, increment
the bar counter, and if it has reached the section length reset it to 0 and
perform a transition. -/
def nextChord (e : Engine) (d : RollDraws) (t : TransDraws) : Engine :=
  let nextProgress := advanceIndex e
  let e1 := rollMutes e d
  let e2 := { e1 with
    state := { e1.state with progressIndex := nextProgress }
    barCount := e1.barCount + 1 }
  if e2.barCount ≥ e2.sectionLength then transition { e2 with barCount := 0 } t
  else e2

/-- Notes handed to the piano sampler by `playChord`: the key's octave-3
tonic transposed by the chord's semitone distance, harmonized with the
4-voice voicing. -/
def chordNotes (key : String) (c : Chord) : List String :=
  let root := transposeNote (key ++ "3") c.semitoneDist
  (c.generateVoicing 4).map (transposeNote root)

/-- From `playChord` in `engine.ts`: look up the current chord; if it is
missing (empty progression or out-of-range index) or the piano sampler was
never created, return without touching anything; otherwise trigger the chord
and run `nextChord`.  The second component is the sound emitted this tick. -/
def playChord (e : Engine) (d : RollDraws) (t : TransDraws) : Engine × Option (List String) :=
  match e.state.progression.get? e.state.progressIndex, e.pianoLoaded with
  | some c, true => (nextChord e d t, some (chordNotes e.state.key c))
  | _, _ => (e, none)

/-- Cumulative sums, modelling the in-place prefix-sum loop of `playMelody`
(`weights[i] += weights[i-1]`). -/
def cumulative (acc : ℚ) : List ℚ → List ℚ
  | [] => []
  | w :: ws => (acc + w) :: cumulative (acc + w) ws

/-- The inverse-CDF scan of `playMelody`: count leading cumulative weights
strictly below the draw (`while (scaleDist < weights.length && rand >
weights[scaleDist]) scaleDist++`). -/
def scanDist (r : ℚ) : List ℚ → Nat
  | [] => 0
  | w :: ws => if r > w then scanDist r ws + 1 else 0

/-- Direction and step distance computed by `playMelody`: bounded descend /
ascend ranges (cap 7), uniform direction choice when both are open, the
normalized cumulative slice of `INTERVAL_WEIGHTS`, and the inverse-CDF
sampled distance. -/
def melodyStep (e : Engine) (d : MelodyDraws) : Bool × Nat :=
  let descendRange : ℤ := min e.scalePos 7 + 1
  let ascendRange : ℤ := min ((e.scale.length : ℤ) - e.scalePos) 7
  let descend : Bool :=
    if descendRange > 1 ∧ ascendRange > 1 then decide (d.dir > 0.5)
    else decide (descendRange > 1)
  let ws0 := if descend then INTERVAL_WEIGHTS.take descendRange.toNat
    else INTERVAL_WEIGHTS.take ascendRange.toNat
  let s := ws0.sum
  let ws1 := ws0.map (fun w => w / s)
  (descend, scanDist d.step (cumulative 0 ws1))

/-- The scale position `playMelody` would move to this tick. -/
def melodyCandidate (e : Engine) (d : MelodyDraws) : ℤ :=
  let sd := melodyStep e d
  e.scalePos + (if sd.1 then -(sd.2 : ℤ) else (sd.2 : ℤ))

/-- From `playMelody` in `engine.ts`: bail out when the melody is muted, the
density gate fails, or the piano sampler was never created; otherwise move to
the candidate position and sound that scale note only when the candidate is
inside `[0, scale.length)`, else skip the tick with no mutation. -/
def playMelody (e : Engine) (d : MelodyDraws) : Engine × Option String :=
  if e.melodyOff ∨ d.gate > e.melodyDensity ∨ e.pianoLoaded = false then (e, none)
  else
    let np := melodyCandidate e d
    if 0 ≤ np ∧ np < (e.scale.length : ℤ) then
      ({ e with scalePos := np }, some (e.scale.getD np.toNat ""))
    else (e, none)

/-- Firing decision of the kick sequence callback in `setupSequences`:
template hits `C4` fire with probability `0.6 + kickEmphasis * 0.35`, the
designated ghost slot `.` with probability `kickEmphasis * 0.15`, and a muted
kick never fires. -/
def kickFires (e : Engine) (note : String) (r1 r2 : ℚ) : Bool :=
  if e.kickOff = false ∧ note = "C4" then decide (r1 < 0.6 + e.kickEmphasis * 0.35)
  else if e.kickOff = false ∧ note = "." ∧ r2 < e.kickEmphasis * 0.15 then true
  else false

/-- Firing decision of the snare sequence callback: non-empty template slots
fire with fixed probability 0.8 unless muted. -/
def snareFires (e : Engine) (note : String) (r : ℚ) : Bool :=
  decide (e.snareOff = false ∧ note ≠ "" ∧ r < 0.8)

/-- Firing decision of the hat sequence callback: non-empty template slots
fire with probability `0.5 + hihatActivity * 0.4` unless muted. -/
def hatFires (e : Engine) (note : String) (r : ℚ) : Bool :=
  decide (e.hatOff = false ∧ note ≠ "" ∧ r < 0.5 + e.hihatActivity * 0.4)

/-- From `stop` in `engine.ts`: halt the transport and sequences, clear the
playing flag, reset the progression index and the bar counter; key and
progression contents are left untouched. -/
def stop (e : Engine) : Engine :=
  { e with
      state := { e.state with isPlaying := false, progressIndex := 0 }
      barCount := 0 }

/-- From `pause` in `engine.ts`: halt the transport, clear the playing flag,
leave every counter and the progression alone. -/
def pause (e : Engine) : Engine :=
  { e with state := { e.state with isPlaying := false } }

/-- From `initialize` in `engine.ts`: if a load promise is already memoized
return it unchanged, otherwise memoize a fresh promise (identified by the
current `_initialize` run count) and start the load body exactly once. -/
def initializeCall (e : Engine) : Engine × Nat :=
  match e.loadPromise with
  | some p => (e, p)
  | none => ({ e with loadPromise := some e.initCount, initCount := e.initCount + 1 }, e.initCount)

/-- Completion of the `_initialize` load body: the samplers now exist, the
transport registers are written (`bpm` from state, swing 1), and
`isLoaded` becomes true. -/
def completeInit (e : Engine) : Engine :=
  { e with
      state := { e.state with isLoaded := true }
      pianoLoaded := true
      kickLoaded := true
      snareLoaded := true
      hatLoaded := true
      transportBpm := e.state.bpm
      transportSwing := 1 }

/-- From `play` in `engine.ts`: initialize (to completion) when not yet
loaded, generate a progression only when none exists, start transport and
sequences, and set the playing flag. -/
def play (e : Engine) (g : GenDraws) : Engine :=
  let e1 := if e.state.isLoaded = false then completeInit (initializeCall e).1 else e
  let e2 := if e1.state.progression.length = 0 then generateProgression e1 g else e1
  { e2 with state := { e2.state with isPlaying := true } }

/-- From `skip` in `engine.ts`: the body is exactly `this.transition()`. -/
def skip (e : Engine) (t : TransDraws) : Engine :=
  transition e t

/-- From `setNoiseVolume` in `engine.ts`: the state field stores the value
clamped to `[0,1]` (`Math.max(0, Math.min(1, volume))`). -/
def setNoiseVolume (e : Engine) (v : ℚ) : Engine :=
  { e with state := { e.state with noiseVolume := max 0 (min 1 v) } }

/-- From `setNoiseType` in `engine.ts` (noise node start/stop is audio
only). -/
def setNoiseType (e : Engine) (ty : NoiseType) : Engine :=
  { e with state := { e.state with noiseType := ty } }

/-- JS `Math.round`: round half up, `⌊x + 1/2⌋`. -/
def jsRound (q : ℚ) : ℤ := ⌊q + 1/2⌋

/-- From `applyTempo` in `engine.ts`: sample a target BPM uniformly in the
arm's range and store it doubled (state field and transport register). -/
def applyTempo (e : Engine) (arm : TempoArm) (r : ℚ) : Engine :=
  let range := TEMPO_RANGES arm
  let targetBpm : ℚ := (range.min : ℚ) + r * ((range.max : ℚ) - (range.min : ℚ))
  let newBpm := jsRound (targetBpm * 2)
  { e with
      state := { e.state with bpm := newBpm }
      transportBpm := newBpm }

/-- From `applyEnergy` in `engine.ts`: set melody density and velocity, and
derive the kick/snare category disables from the arm's instrument count. -/
def applyEnergy (e : Engine) (arm : EnergyArm) : Engine :=
  let p := ENERGY_PARAMS arm
  { e with
      melodyDensity := p.density
      currentVelocity := p.velocity
      kickOff := decide (p.instruments < 3)
      snareOff := decide (p.instruments < 4) }

/-- From `applyDanceability` in `engine.ts`: write the transport swing
register and the kick emphasis / hat activity biases. -/
def applyDanceability (e : Engine) (arm : DanceabilityArm) : Engine :=
  let p := DANCEABILITY_PARAMS arm
  { e with
      transportSwing := p.swing
      kickEmphasis := p.kickEmphasis
      hihatActivity := p.hihatActivity }

/-- From `applyValence` in `engine.ts`: record the minor-key preference for
the next regeneration. -/
def applyValence (e : Engine) (arm : ValenceArm) : Engine :=
  { e with preferMinor := (VALENCE_PARAMS arm).useMinor }

/-- From `applyGenerationParams` in `engine.ts`: apply tempo, energy,
danceability and valence in order, then remember the params. -/
def applyGenerationParams (e : Engine) (p : GenerationParams) (r : ℚ) : Engine :=
  let e1 := applyTempo e p.tempo r
  let e2 := applyEnergy e1 p.energy
  let e3 := applyDanceability e2 p.danceability
  let e4 := applyValence e3 p.valence
  { e4 with currentParams := some p }

/-- From `getState` in `engine.ts`: a snapshot copy of the state record. -/
def getState (e : Engine) : GenerativeState := e.state

/-- One externally triggered event: a tick callback or a public method call,
carrying the random draws it consumes. -/
inductive Step
  | chordTick (d : RollDraws) (t : TransDraws)
  | melodyTick (d : MelodyDraws)
  | genProg (g : GenDraws)
  | doStop
  | doPause
  | doPlay (g : GenDraws)
  | doSkip (t : TransDraws)
  | doApply (p : GenerationParams) (r : ℚ)
  | doSetNoiseVolume (v : ℚ)
  | doSetNoiseType (ty : NoiseType)
  | doInit
  | doCompleteInit
deriving Repr

/-- State effect of one step (the drum tick callbacks never mutate engine
state, so they contribute no step). -/
def applyStep (e : Engine) : Step → Engine
  | .chordTick d t => (playChord e d t).1
  | .melodyTick d => (playMelody e d).1
  | .genProg g => generateProgression e g
  | .doStop => stop e
  | .doPause => pause e
  | .doPlay g => play e g
  | .doSkip t => skip e t
  | .doApply p r => applyGenerationParams e p r
  | .doSetNoiseVolume v => setNoiseVolume e v
  | .doSetNoiseType ty => setNoiseType e ty
  | .doInit => (initializeCall e).1
  | .doCompleteInit => completeInit e

/-- Run a sequence of steps. -/
def run (e : Engine) (ss : List Step) : Engine := ss.foldl applyStep e

/-- A draw produced by `Math.random()` lies in `[0,1)`. -/
def unitIv (r : ℚ) : Prop := 0 ≤ r ∧ r < 1

instance (r : ℚ) : Decidable (unitIv r) :=
  decidable_of_iff (0 ≤ r ∧ r < 1) Iff.rfl

/-- Validity of the draws feeding `generateProgression`. -/
def GenDraws.Valid (g : GenDraws) : Prop := unitIv g.keyDraw ∧ unitIv g.posDraw

instance (g : GenDraws) : Decidable g.Valid :=
  decidable_of_iff (unitIv g.keyDraw ∧ unitIv g.posDraw) Iff.rfl

/-- Validity of the draws feeding `transition`. -/
def TransDraws.Valid (t : TransDraws) : Prop := t.gen.Valid ∧ unitIv t.lenDraw

instance (t : TransDraws) : Decidable t.Valid :=
  decidable_of_iff (t.gen.Valid ∧ unitIv t.lenDraw) Iff.rfl

/-- A step is valid when every `Math.random()` draw it consumes that the
engine feeds into an array index or a scale position lies in `[0,1)`. -/
def Step.Valid : Step → Prop
  | .chordTick _ t => t.Valid
  | .genProg g => g.Valid
  | .doPlay g => g.Valid
  | .doSkip t => t.Valid
  | _ => True

instance : (s : Step) → Decidable s.Valid
  | .chordTick _ t => inferInstanceAs (Decidable t.Valid)
  | .melodyTick _ => inferInstanceAs (Decidable True)
  | .genProg g => inferInstanceAs (Decidable g.Valid)
  | .doStop => inferInstanceAs (Decidable True)
  | .doPause => inferInstanceAs (Decidable True)
  | .doPlay g => inferInstanceAs (Decidable g.Valid)
  | .doSkip t => inferInstanceAs (Decidable t.Valid)
  | .doApply _ _ => inferInstanceAs (Decidable True)
  | .doSetNoiseVolume _ => inferInstanceAs (Decidable True)
  | .doSetNoiseType _ => inferInstanceAs (Decidable True)
  | .doInit => inferInstanceAs (Decidable True)
  | .doCompleteInit => inferInstanceAs (Decidable True)

/-- Iterated chord ticks: fold `nextChord` over a list of per-tick draws. -/
def runChordTicks (e : Engine) (ds : List (RollDraws × TransDraws)) : Engine :=
  ds.foldl (fun a p => nextChord a p.1 p.2) e

/-- Iterated `initialize` calls, collecting the promise returned to each
caller. -/
def initSeq : Engine → Nat → Engine × List Nat
  | e, 0 => (e, [])
  | e, n + 1 =>
      let r := initializeCall e
      let rest := initSeq r.1 n
      (rest.1, r.2 :: rest.2)

/-- A loaded engine holding an 8-chord progression at index 0 (the state
right after a first progression generation), used by concrete scenarios. -/
def readyEngine : Engine :=
  { initEngine with
      state := { initEngine.state with
        progression := [⟨0⟩, ⟨2⟩, ⟨4⟩, ⟨5⟩, ⟨7⟩, ⟨9⟩, ⟨11⟩, ⟨0⟩] }
      pianoLoaded := true
      kickLoaded := true
      snareLoaded := true
      hatLoaded := true }

/-- Draws that all fall on the non-firing side of every mute re-roll
threshold (each 0.5, above 0.15 / 0.2 / 0.25). -/
def halfDraws : RollDraws := ⟨0.5, 0.5, 0.5, 0.5, 0.5⟩

/-- Arbitrary fixed transition draws (all zero). -/
def zeroTrans : TransDraws := ⟨⟨0, [], 0⟩, 0, 0, 0, 0, 0, 0⟩

/-- The ready engine right after the lowest energy arm has been applied. -/
def cl1low : Engine := applyEnergy readyEngine .low

/-- The ready engine mid-cycle, at progression index 3. -/
def cl1w : Engine :=
  { readyEngine with state := { readyEngine.state with progressIndex := 3 } }

/-- The ready engine one bar before its section boundary (bar 31 of 32). -/
def cl3e : Engine := { readyEngine with barCount := 31 }

/-- The ready engine at progression index 0 with the kick muted, to observe
the per-bar re-roll. -/
def cl4idx0 : Engine := { readyEngine with kickOff := true }

/-- The ready engine at the last progression index (7 of 8) with the kick
muted, to observe the wraparound tick. -/
def cl4idx7 : Engine :=
  { readyEngine with
      state := { readyEngine.state with progressIndex := 7 }
      kickOff := true }

/-- The initial engine mid-section, at bar 5. -/
def cl5e : Engine := { initEngine with barCount := 5 }

/-- Generation params: focus tempo, low energy, chill danceability, neutral
valence. -/
def cl7p1 : GenerationParams := ⟨.focus, .low, .chill, .neutral⟩

/-- The same params as `cl7p1` except bouncy danceability (a different swing
value). -/
def cl7p2 : GenerationParams := ⟨.focus, .low, .bouncy, .neutral⟩

/-- Scale-position invariant: before any scale exists the cursor rests at 0
over the empty scale; once a scale exists the cursor is inside
`[0, scale.length)`. -/
def ScaleInv (e : Engine) : Prop :=
  (e.scale = [] ∧ e.scalePos = 0) ∨ (0 ≤ e.scalePos ∧ e.scalePos < (e.scale.length : ℤ))

instance (e : Engine) : Decidable (ScaleInv e) :=
  decidable_of_iff ((e.scale = [] ∧ e.scalePos = 0) ∨ (0 ≤ e.scalePos ∧ e.scalePos < (e.scale.length : ℤ))) Iff.rfl

/-- Noise-volume invariant: the state field reported by `getState` lies in
`[0,1]`. -/
def NoiseInv (e : Engine) : Prop :=
  0 ≤ e.state.noiseVolume ∧ e.state.noiseVolume ≤ 1

lemma floor_unit_mul {r : ℚ} {n : ℕ} (h0 : 0 ≤ r) (h1 : r < 1) (hn : 0 < n) :
    0 ≤ ⌊r * (n : ℚ)⌋ ∧ ⌊r * (n : ℚ)⌋ < (n : ℤ) := by
  constructor
  · exact Int.floor_nonneg.2 (mul_nonneg h0 (by positivity))
  · rw [Int.floor_lt]
    have hlt : r * (n : ℚ) < 1 * (n : ℚ) :=
      mul_lt_mul_of_pos_right h1 (by exact_mod_cast hn)
    push_cast
    simpa using hlt

lemma scaleInv_of_eq {e e1 : Engine} (h : ScaleInv e) (hs : e1.scale = e.scale)
    (hp : e1.scalePos = e.scalePos) : ScaleInv e1 := by
  unfold ScaleInv at h ⊢
  rw [hs, hp]
  exact h

lemma buildScale_length_pos (k : String) : 0 < (buildScale k).length := by
  simp [buildScale, FIVE_TO_FIVE]

lemma scaleInv_generateProgression (e : Engine) (g : GenDraws) (hg : g.Valid) :
    ScaleInv (generateProgression e g) := by
  refine Or.inr ⟨?_, ?_⟩
  · simp only [generateProgression]
    exact (floor_unit_mul hg.2.1 hg.2.2 (buildScale_length_pos _)).1
  · simp only [generateProgression]
    exact (floor_unit_mul hg.2.1 hg.2.2 (buildScale_length_pos _)).2

lemma scaleInv_transition (e : Engine) (t : TransDraws) (ht : t.Valid) :
    ScaleInv (transition e t) := by
  have h := scaleInv_generateProgression e t.gen ht.1
  exact scaleInv_of_eq h (by simp [transition]) (by simp [transition])

lemma rollMutes_proj (e : Engine) (d : RollDraws) :
    (rollMutes e d).scale = e.scale ∧ (rollMutes e d).scalePos = e.scalePos ∧
    (rollMutes e d).state = e.state ∧ (rollMutes e d).barCount = e.barCount ∧
    (rollMutes e d).sectionLength = e.sectionLength ∧
    (rollMutes e d).sectionCount = e.sectionCount := by
  unfold rollMutes
  split <;> simp

lemma scaleInv_nextChord (e : Engine) (d : RollDraws) (t : TransDraws) (ht : t.Valid)
    (h : ScaleInv e) : ScaleInv (nextChord e d t) := by
  simp only [nextChord]
  split
  · exact scaleInv_transition _ t ht
  · exact scaleInv_of_eq h (by simp [(rollMutes_proj e d).1]) (by simp [(rollMutes_proj e d).2.1])

lemma scaleInv_playMelody (e : Engine) (d : MelodyDraws) (h : ScaleInv e) :
    ScaleInv (playMelody e d).1 := by
  simp only [playMelody]
  split
  · simpa using h
  · split
    · rename_i hin
      exact Or.inr ⟨by simpa using hin.1, by simpa using hin.2⟩
    · simpa using h

lemma scaleInv_playChord (e : Engine) (d : RollDraws) (t : TransDraws) (ht : t.Valid)
    (h : ScaleInv e) : ScaleInv (playChord e d t).1 := by
  unfold playChord
  split
  · simpa using scaleInv_nextChord e d t ht h
  · simpa using h

lemma initializeCall_proj (e : Engine) :
    (initializeCall e).1.scale = e.scale ∧ (initializeCall e).1.scalePos = e.scalePos ∧
    (initializeCall e).1.state = e.state := by
  unfold initializeCall
  split <;> simp

lemma scaleInv_play (e : Engine) (g : GenDraws) (hg : g.Valid) (h : ScaleInv e) :
    ScaleInv (play e g) := by
  simp only [play]
  set E1 := if e.state.isLoaded = false then completeInit (initializeCall e).1 else e with hE1
  have h1 : ScaleInv E1 := by
    rw [hE1]
    split
    · exact scaleInv_of_eq h (by simp [completeInit, (initializeCall_proj e).1])
        (by simp [completeInit, (initializeCall_proj e).2.1])
    · exact h
  split
  · exact scaleInv_of_eq (scaleInv_generateProgression E1 g hg) (by simp) (by simp)
  · exact scaleInv_of_eq h1 (by simp) (by simp)

lemma scaleInv_applyStep (e : Engine) (s : Step) (hs : s.Valid) (h : ScaleInv e) :
    ScaleInv (applyStep e s) := by
  cases s with
  | chordTick d t => exact scaleInv_playChord e d t hs h
  | melodyTick d => exact scaleInv_playMelody e d h
  | genProg g => exact scaleInv_generateProgression e g hs
  | doStop => exact scaleInv_of_eq h (by simp [applyStep, stop]) (by simp [applyStep, stop])
  | doPause => exact scaleInv_of_eq h (by simp [applyStep, pause]) (by simp [applyStep, pause])
  | doPlay g => exact scaleInv_play e g hs h
  | doSkip t => exact scaleInv_transition e t hs
  | doApply p r =>
      exact scaleInv_of_eq h
        (by simp [applyStep, applyGenerationParams, applyTempo, applyEnergy, applyDanceability, applyValence])
        (by simp [applyStep, applyGenerationParams, applyTempo, applyEnergy, applyDanceability, applyValence])
  | doSetNoiseVolume v =>
      exact scaleInv_of_eq h (by simp [applyStep, setNoiseVolume]) (by simp [applyStep, setNoiseVolume])
  | doSetNoiseType ty =>
      exact scaleInv_of_eq h (by simp [applyStep, setNoiseType]) (by simp [applyStep, setNoiseType])
  | doInit =>
      exact scaleInv_of_eq h (by simp [applyStep, (initializeCall_proj e).1])
        (by simp [applyStep, (initializeCall_proj e).2.1])
  | doCompleteInit =>
      exact scaleInv_of_eq h (by simp [applyStep, completeInit]) (by simp [applyStep, completeInit])

lemma scaleInv_run (e : Engine) (ss : List Step) (h : ScaleInv e)
    (hv : ∀ s ∈ ss, s.Valid) : ScaleInv (run e ss) := by
  induction ss generalizing e with
  | nil => exact h
  | cons s rest ih =>
      exact ih (applyStep e s) (scaleInv_applyStep e s (hv s (by simp)) h)
        (fun x hx => hv x (by simp [hx]))

lemma noise_of_eq {e e1 : Engine} (h : NoiseInv e)
    (hn : e1.state.noiseVolume = e.state.noiseVolume) : NoiseInv e1 := by
  unfold NoiseInv at h ⊢
  rw [hn]
  exact h

lemma generateProgression_noise (e : Engine) (g : GenDraws) :
    (generateProgression e g).state.noiseVolume = e.state.noiseVolume := by
  simp [generateProgression]

lemma transition_noise (e : Engine) (t : TransDraws) :
    (transition e t).state.noiseVolume = e.state.noiseVolume := by
  simp [transition, generateProgression_noise]

lemma nextChord_noise (e : Engine) (d : RollDraws) (t : TransDraws) :
    (nextChord e d t).state.noiseVolume = e.state.noiseVolume := by
  simp only [nextChord]
  split
  · rw [transition_noise]
    simp [(rollMutes_proj e d).2.2.1]
  · simp [(rollMutes_proj e d).2.2.1]

lemma noiseInv_applyStep (e : Engine) (s : Step) (h : NoiseInv e) :
    NoiseInv (applyStep e s) := by
  cases s with
  | chordTick d t =>
      refine noise_of_eq h ?_
      show (playChord e d t).1.state.noiseVolume = e.state.noiseVolume
      unfold playChord
      split
      · simpa using nextChord_noise e d t
      · simp
  | melodyTick d =>
      refine noise_of_eq h ?_
      show (playMelody e d).1.state.noiseVolume = e.state.noiseVolume
      simp only [playMelody]
      split
      · simp
      · split <;> simp
  | genProg g => exact noise_of_eq h (generateProgression_noise e g)
  | doStop => exact noise_of_eq h (by simp [applyStep, stop])
  | doPause => exact noise_of_eq h (by simp [applyStep, pause])
  | doPlay g =>
      refine noise_of_eq h ?_
      show (play e g).state.noiseVolume = e.state.noiseVolume
      simp only [play]
      split <;> split <;>
        simp [generateProgression_noise, completeInit, (initializeCall_proj e).2.2]
  | doSkip t => exact noise_of_eq h (transition_noise e t)
  | doApply p r =>
      exact noise_of_eq h
        (by simp [applyStep, applyGenerationParams, applyTempo, applyEnergy, applyDanceability, applyValence])
  | doSetNoiseVolume v =>
      refine ⟨?_, ?_⟩
      · show 0 ≤ (setNoiseVolume e v).state.noiseVolume
        simp only [setNoiseVolume]
        exact le_max_left 0 (min 1 v)
      · show (setNoiseVolume e v).state.noiseVolume ≤ 1
        simp only [setNoiseVolume]
        exact max_le zero_le_one (min_le_left 1 v)
  | doSetNoiseType ty => exact noise_of_eq h (by simp [applyStep, setNoiseType])
  | doInit => exact noise_of_eq h (by simp [applyStep, (initializeCall_proj e).2.2])
  | doCompleteInit => exact noise_of_eq h (by simp [applyStep, completeInit])

lemma noiseInv_run (e : Engine) (ss : List Step) (h : NoiseInv e) :
    NoiseInv (run e ss) := by
  induction ss generalizing e with
  | nil => exact h
  | cons s rest ih => exact ih (applyStep e s) (noiseInv_applyStep e s h)

lemma transition_barCount (e : Engine) (t : TransDraws) :
    (transition e t).barCount = e.barCount := by
  simp [transition, generateProgression]

lemma transition_sectionCount (e : Engine) (t : TransDraws) :
    (transition e t).sectionCount = e.sectionCount + 1 := by
  simp [transition, generateProgression]

lemma nextChord_of_boundary (e : Engine) (d : RollDraws) (t : TransDraws)
    (hb : e.sectionLength ≤ e.barCount + 1) :
    (nextChord e d t).barCount = 0 ∧ (nextChord e d t).sectionCount = e.sectionCount + 1 := by
  have hc := rollMutes_proj e d
  simp only [nextChord]
  split
  · refine ⟨?_, ?_⟩
    · simp [transition_barCount]
    · rw [transition_sectionCount]
      simp [hc.2.2.2.2.2]
  · rename_i hn
    exfalso
    simp only [hc.2.2.2.1, hc.2.2.2.2.1, not_le] at hn
    omega

lemma nextChord_no_boundary (e : Engine) (d : RollDraws) (t : TransDraws)
    (hnb : e.barCount + 1 < e.sectionLength) :
    nextChord e d t = { rollMutes e d with
      state := { (rollMutes e d).state with progressIndex := advanceIndex e }
      barCount := e.barCount + 1 } := by
  have hc := rollMutes_proj e d
  simp only [nextChord]
  split
  · rename_i hy
    exfalso
    simp only [hc.2.2.2.1, hc.2.2.2.2.1] at hy
    omega
  · rw [hc.2.2.2.1]

lemma nextChord_no_boundary_proj (e : Engine) (d : RollDraws) (t : TransDraws)
    (hnb : e.barCount + 1 < e.sectionLength) :
    (nextChord e d t).state.progression = e.state.progression ∧
    (nextChord e d t).state.progressIndex = advanceIndex e ∧
    (nextChord e d t).barCount = e.barCount + 1 ∧
    (nextChord e d t).sectionLength = e.sectionLength ∧
    (nextChord e d t).sectionCount = e.sectionCount := by
  have hc := rollMutes_proj e d
  rw [nextChord_no_boundary e d t hnb]
  simp [hc.2.2.1, hc.2.2.2.2.1, hc.2.2.2.2.2]

lemma nextChord_flags_zero (e : Engine) (d : RollDraws) (t : TransDraws)
    (hnb : e.barCount + 1 < e.sectionLength) (h0 : e.state.progressIndex = 0) :
    (nextChord e d t).kickOff = decide (d.kick < 0.15) ∧
    (nextChord e d t).snareOff = decide (d.snare < 0.2) ∧
    (nextChord e d t).hatOff = decide (d.hat < 0.25) ∧
    (nextChord e d t).melodyDensity = d.density * 0.3 + 0.2 ∧
    (nextChord e d t).melodyOff = decide (d.melody < 0.25) := by
  rw [nextChord_no_boundary e d t hnb]
  simp [rollMutes, h0]

lemma nextChord_flags_nonzero (e : Engine) (d : RollDraws) (t : TransDraws)
    (hnb : e.barCount + 1 < e.sectionLength) (h0 : e.state.progressIndex ≠ 0) :
    (nextChord e d t).kickOff = e.kickOff ∧
    (nextChord e d t).snareOff = e.snareOff ∧
    (nextChord e d t).hatOff = e.hatOff ∧
    (nextChord e d t).melodyDensity = e.melodyDensity ∧
    (nextChord e d t).melodyOff = e.melodyOff := by
  rw [nextChord_no_boundary e d t hnb]
  simp [rollMutes, h0]

lemma advanceIndex_mod (e : Engine)
    (h : e.state.progressIndex < e.state.progression.length) :
    advanceIndex e = (e.state.progressIndex + 1) % e.state.progression.length := by
  unfold advanceIndex
  rcases Nat.lt_or_ge (e.state.progressIndex + 1) e.state.progression.length with hlt | hge
  · rw [if_neg (by omega : ¬((e.state.progressIndex : ℤ) = (e.state.progression.length : ℤ) - 1))]
    exact (Nat.mod_eq_of_lt hlt).symm
  · rw [if_pos (by omega : ((e.state.progressIndex : ℤ) = (e.state.progression.length : ℤ) - 1))]
    have h1 : e.state.progressIndex + 1 = e.state.progression.length := by omega
    rw [h1, Nat.mod_self]

lemma runChordTicks_proj (ds : List (RollDraws × TransDraws)) :
    ∀ e : Engine, e.state.progressIndex < e.state.progression.length →
      e.barCount + ds.length < e.sectionLength →
      (runChordTicks e ds).state.progressIndex =
        (e.state.progressIndex + ds.length) % e.state.progression.length ∧
      (runChordTicks e ds).state.progression = e.state.progression ∧
      (runChordTicks e ds).barCount = e.barCount + ds.length ∧
      (runChordTicks e ds).sectionLength = e.sectionLength := by
  induction ds with
  | nil =>
      intro e h1 h2
      exact ⟨(Nat.mod_eq_of_lt h1).symm ▸ by simp [runChordTicks, Nat.mod_eq_of_lt h1],
        rfl, by simp [runChordTicks], rfl⟩
  | cons p rest ih =>
      intro e h1 h2
      have hnb : e.barCount + 1 < e.sectionLength := by
        simp only [List.length_cons] at h2
        omega
      have hp := nextChord_no_boundary_proj e p.1 p.2 hnb
      have hstep : runChordTicks e (p :: rest) = runChordTicks (nextChord e p.1 p.2) rest := rfl
      have hlen : 0 < e.state.progression.length := by omega
      have h1n : (nextChord e p.1 p.2).state.progressIndex <
          (nextChord e p.1 p.2).state.progression.length := by
        rw [hp.1, hp.2.1, advanceIndex_mod e h1]
        exact Nat.mod_lt _ hlen
      have h2n : (nextChord e p.1 p.2).barCount + rest.length <
          (nextChord e p.1 p.2).sectionLength := by
        rw [hp.2.2.1, hp.2.2.2.1]
        simp only [List.length_cons] at h2
        omega
      have := ih (nextChord e p.1 p.2) h1n h2n
      rw [hstep]
      refine ⟨?_, ?_, ?_, ?_⟩
      · rw [this.1, hp.1, hp.2.1, advanceIndex_mod e h1]
        simp only [List.length_cons]
        rw [Nat.mod_add_mod]
        congr 1
        omega
      · rw [this.2.1, hp.1]
      · rw [this.2.2.1, hp.2.2.1]
        simp only [List.length_cons]
        omega
      · rw [this.2.2.2, hp.2.2.2.1]

lemma playMelody_counters (e : Engine) (m : MelodyDraws) :
    (playMelody e m).1.sectionCount = e.sectionCount ∧
    (playMelody e m).1.barCount = e.barCount ∧
    (playMelody e m).1.kickOff = e.kickOff ∧
    (playMelody e m).1.snareOff = e.snareOff := by
  simp only [playMelody]
  split
  · simp
  · split <;> simp

lemma kickFires_muted (e : Engine) (hk : e.kickOff = true) (note : String) (r1 r2 : ℚ) :
    kickFires e note r1 r2 = false := by
  unfold kickFires
  rw [if_neg (by simp [hk]), if_neg (by simp [hk])]

lemma snareFires_muted (e : Engine) (hk : e.snareOff = true) (note : String) (r : ℚ) :
    snareFires e note r = false := by
  simp [snareFires, hk]

lemma applyEnergy_proj (e : Engine) (a : EnergyArm) :
    (applyEnergy e a).state = e.state ∧
    (applyEnergy e a).barCount = e.barCount ∧
    (applyEnergy e a).sectionLength = e.sectionLength := by
  simp [applyEnergy]

lemma applyEnergy_low_flags (e : Engine) :
    (applyEnergy e .low).kickOff = true ∧ (applyEnergy e .low).snareOff = true := by
  simp [applyEnergy, ENERGY_PARAMS]

lemma play_no_gen (e : Engine) (g : GenDraws) (h : e.state.progression ≠ []) :
    (play e g).state.key = e.state.key ∧
    (play e g).state.progression = e.state.progression ∧
    (play e g).state.progressIndex = e.state.progressIndex ∧
    (play e g).state.isPlaying = true := by
  simp only [play]
  set E1 := if e.state.isLoaded = false then completeInit (initializeCall e).1 else e with hE1
  have hk : E1.state.key = e.state.key ∧ E1.state.progression = e.state.progression ∧
      E1.state.progressIndex = e.state.progressIndex := by
    rw [hE1]
    split <;> simp [completeInit, (initializeCall_proj e).2.2]
  have hne : ¬(E1.state.progression.length = 0) := by
    rw [hk.2.1]
    simpa using h
  rw [if_neg hne]
  exact ⟨by simp [hk.1], by simp [hk.2.1], by simp [hk.2.2], by simp⟩

lemma initializeCall_memo (e : Engine) (p : Nat) (h : e.loadPromise = some p) :
    initializeCall e = (e, p) := by
  unfold initializeCall
  rw [h]

lemma initializeCall_fresh (e : Engine) (h : e.loadPromise = none) :
    initializeCall e =
      ({ e with loadPromise := some e.initCount, initCount := e.initCount + 1 }, e.initCount) := by
  unfold initializeCall
  rw [h]

lemma initSeq_memo (e : Engine) (p : Nat) (n : Nat) (h : e.loadPromise = some p) :
    initSeq e n = (e, List.replicate n p) := by
  induction n with
  | zero => simp [initSeq]
  | succ k ih => simp [initSeq, initializeCall_memo e p h, ih, List.replicate_succ]

lemma tempo_min_le_max (a : TempoArm) : (TEMPO_RANGES a).min ≤ (TEMPO_RANGES a).max := by
  cases a <;> decide

lemma jsRound_bounds {m M : ℤ} {r : ℚ} (hm : m ≤ M) (h0 : 0 ≤ r) (h1 : r < 1) :
    2 * m ≤ jsRound (((m : ℚ) + r * ((M : ℚ) - (m : ℚ))) * 2) ∧
    jsRound (((m : ℚ) + r * ((M : ℚ) - (m : ℚ))) * 2) ≤ 2 * M := by
  have hd : (0 : ℚ) ≤ (M : ℚ) - (m : ℚ) := by
    have : (m : ℚ) ≤ (M : ℚ) := by exact_mod_cast hm
    linarith
  have hr1 : r * ((M : ℚ) - (m : ℚ)) ≤ 1 * ((M : ℚ) - (m : ℚ)) :=
    mul_le_mul_of_nonneg_right h1.le hd
  have hr0 : 0 ≤ r * ((M : ℚ) - (m : ℚ)) := mul_nonneg h0 hd
  constructor
  · rw [jsRound, Int.le_floor]
    push_cast
    linarith
  · rw [jsRound, ← Int.lt_add_one_iff, Int.floor_lt]
    push_cast
    linarith

lemma engine_barCount_eta (e : Engine) (h0 : e.barCount = 0) :
    ({ e with barCount := 0 } : Engine) = e := by
  have hgen : ∀ (x : Engine) (n : Nat), x.barCount = n →
      ({ x with barCount := n } : Engine) = x := by
    intro x n hx
    cases x
    subst hx
    rfl
  exact hgen e 0 h0

/-- C1 counterexample: from the ready engine with the lowest energy arm
applied (kick and snare categorically muted), a single chord tick taken at
progression index 0 re-rolls the mutes with draws of 0.5 -- above every mute
threshold -- so `kickOff` and `snareOff` flip back to `false`, and on the
next drum ticks both the kick and the snare fire.  This refutes the claim
that the flags remain true until a new energy arm is applied. -/
theorem claim1_counterexample :
    cl1low.kickOff = true ∧ cl1low.snareOff = true ∧
    (playChord cl1low halfDraws zeroTrans).1.kickOff = false ∧
    (playChord cl1low halfDraws zeroTrans).1.snareOff = false ∧
    kickFires (playChord cl1low halfDraws zeroTrans).1 "C4" 0 0 = true ∧
    snareFires (playChord cl1low halfDraws zeroTrans).1 "C4" 0 = true := by
  norm_num [cl1low, applyEnergy, ENERGY_PARAMS, readyEngine, initEngine, playChord,
    nextChord, rollMutes, advanceIndex, halfDraws, zeroTrans, kickFires, snareFires]
  decide

/-- C1 (amended): applying the lowest energy arm sets `kickOff` and
`snareOff`, and while those flags hold neither the kick nor the snare voice
ever fires, for any template note and any random draws; the flags survive
melody ticks and any chord tick that neither starts at progression index 0
nor crosses a section boundary.  They do not survive the per-bar re-roll at
index 0 (see the counterexample), which overwrites them independently of the
energy arm. -/
theorem claim1_energy_low_disables (e : Engine) (d : RollDraws) (t : TransDraws)
    (m : MelodyDraws) (hidx : e.state.progressIndex ≠ 0)
    (hnb : e.barCount + 1 < e.sectionLength) :
    (applyEnergy e .low).kickOff = true ∧
    (applyEnergy e .low).snareOff = true ∧
    (∀ note r1 r2, kickFires (applyEnergy e .low) note r1 r2 = false) ∧
    (∀ note r, snareFires (applyEnergy e .low) note r = false) ∧
    (playMelody (applyEnergy e .low) m).1.kickOff = true ∧
    (playMelody (applyEnergy e .low) m).1.snareOff = true ∧
    (nextChord (applyEnergy e .low) d t).kickOff = true ∧
    (nextChord (applyEnergy e .low) d t).snareOff = true := by
  have hf := applyEnergy_low_flags e
  have hep := applyEnergy_proj e .low
  have hidx2 : (applyEnergy e .low).state.progressIndex ≠ 0 := by
    rw [hep.1]; exact hidx
  have hnb2 : (applyEnergy e .low).barCount + 1 < (applyEnergy e .low).sectionLength := by
    rw [hep.2.1, hep.2.2]; exact hnb
  have hn := nextChord_flags_nonzero (applyEnergy e .low) d t hnb2 hidx2
  have hm := playMelody_counters (applyEnergy e .low) m
  exact ⟨hf.1, hf.2, fun note r1 r2 => kickFires_muted _ hf.1 note r1 r2,
    fun note r => snareFires_muted _ hf.2 note r,
    hm.2.2.1.trans hf.1, hm.2.2.2.trans hf.2,
    hn.1.trans hf.1, hn.2.1.trans hf.2⟩

/-- C1 witness: the amended theorem applied at the ready engine sitting at
progression index 3, mid-section. -/
theorem claim1_witness :
    cl1w.state.progressIndex ≠ 0 ∧ cl1w.barCount + 1 < cl1w.sectionLength ∧
    (applyEnergy cl1w .low).kickOff = true ∧
    (nextChord (applyEnergy cl1w .low) halfDraws zeroTrans).kickOff = true := by
  have h := claim1_energy_low_disables cl1w halfDraws zeroTrans ⟨0, 0, 0⟩
    (by decide) (by decide)
  exact ⟨by decide, by decide, h.1, h.2.2.2.2.2.2.1⟩

/-- C2: for every sequence of tick callbacks and public method calls with
`Math.random()` draws in `[0,1)`, the reachable engine state keeps the
melodic-walk cursor in range: either no scale exists yet (empty scale,
position 0, the initial state) or `scalePos` lies in `[0, scale.length)`.
`playMelody` only ever assigns an in-range position, and every progression
regeneration resets the position to `floor(random * newScale.length)`. -/
theorem claim2_scalePos_in_range (ss : List Step) (hv : ∀ s ∈ ss, s.Valid) :
    ScaleInv (run initEngine ss) :=
  scaleInv_run initEngine ss (Or.inl ⟨rfl, rfl⟩) hv

/-- C2 witness: a concrete run that regenerates the progression and then
takes a melody tick. -/
theorem claim2_witness :
    (∀ s ∈ [Step.genProg ⟨0, [], 0⟩, Step.melodyTick ⟨0, 0, 0⟩], Step.Valid s) ∧
    ScaleInv (run initEngine [Step.genProg ⟨0, [], 0⟩, Step.melodyTick ⟨0, 0, 0⟩]) :=
  ⟨by decide, claim2_scalePos_in_range _ (by decide)⟩

/-- C3: a section transition is performed on a chord tick exactly when the
incremented bar counter reaches the section length (the source compares with
`>=`, which coincides with equality whenever the counter is still below the
length); immediately after such a tick the bar counter is 0 and the section
count has grown by exactly 1, and after a non-boundary tick the counter has
only been incremented and the section count is unchanged.  No other tick
transitions: a melody tick touches neither counter, and the drum callbacks
(`kickFires`/`snareFires`/`hatFires`) are pure firing decisions that never
mutate engine state. -/
theorem claim3_section_boundary (e : Engine) (d : RollDraws) (t : TransDraws)
    (m : MelodyDraws) :
    (e.sectionLength ≤ e.barCount + 1 →
      (nextChord e d t).barCount = 0 ∧
      (nextChord e d t).sectionCount = e.sectionCount + 1) ∧
    (e.barCount + 1 < e.sectionLength →
      (nextChord e d t).barCount = e.barCount + 1 ∧
      (nextChord e d t).sectionCount = e.sectionCount) ∧
    (playMelody e m).1.sectionCount = e.sectionCount ∧
    (playMelody e m).1.barCount = e.barCount := by
  have hm := playMelody_counters e m
  refine ⟨fun hb => nextChord_of_boundary e d t hb, fun hnb => ?_, hm.1, hm.2.1⟩
  have hp := nextChord_no_boundary_proj e d t hnb
  exact ⟨hp.2.2.1, hp.2.2.2.2⟩

/-- C3 witness: the ready engine at bar 31 of a 32-bar section transitions on
the next chord tick. -/
theorem claim3_witness :
    cl3e.sectionLength ≤ cl3e.barCount + 1 ∧
    (nextChord cl3e halfDraws zeroTrans).barCount = 0 ∧
    (nextChord cl3e halfDraws zeroTrans).sectionCount = cl3e.sectionCount + 1 := by
  have h := (claim3_section_boundary cl3e halfDraws zeroTrans ⟨0, 0, 0⟩).1 (by decide)
  exact ⟨by decide, h.1, h.2⟩

/-- C4 counterexample: the per-bar mute re-roll does not happen on the tick
where the index wraps around to 0.  From index 0 (of an 8-chord progression)
a tick re-rolls the mutes (the muted kick flips to `false` under draws of
0.5) while the index moves to 1, not 0; from index 7 the tick does wrap the
index to 0 but performs no re-roll (the muted kick stays `true` under the
same draws). -/
theorem claim4_counterexample :
    cl4idx0.state.progressIndex = 0 ∧
    (nextChord cl4idx0 halfDraws zeroTrans).state.progressIndex = 1 ∧
    (nextChord cl4idx0 halfDraws zeroTrans).kickOff = false ∧
    cl4idx7.state.progressIndex = 7 ∧
    (nextChord cl4idx7 halfDraws zeroTrans).state.progressIndex = 0 ∧
    (nextChord cl4idx7 halfDraws zeroTrans).kickOff = true := by
  norm_num [cl4idx0, cl4idx7, readyEngine, initEngine, nextChord, rollMutes,
    advanceIndex, halfDraws, zeroTrans]

/-- C4 (amended): on every chord tick the progression index advances
circularly, so after `length` ticks with no section boundary crossed it
returns to its starting value; and the probabilistic re-roll of the
kick/snare/hat mutes and of melody density/mute happens precisely on the
ticks that begin with progression index 0 (the tick following a wraparound,
and the very first tick) -- not on the wraparound tick itself. -/
theorem claim4_cycle_and_reroll (e : Engine) (ds : List (RollDraws × TransDraws))
    (d : RollDraws) (t : TransDraws)
    (h1 : e.state.progressIndex < e.state.progression.length)
    (h2 : e.barCount + ds.length < e.sectionLength)
    (h3 : ds.length = e.state.progression.length)
    (h4 : e.barCount + 1 < e.sectionLength) :
    (runChordTicks e ds).state.progressIndex = e.state.progressIndex ∧
    (e.state.progressIndex = 0 →
      (nextChord e d t).kickOff = decide (d.kick < 0.15) ∧
      (nextChord e d t).snareOff = decide (d.snare < 0.2) ∧
      (nextChord e d t).hatOff = decide (d.hat < 0.25) ∧
      (nextChord e d t).melodyDensity = d.density * 0.3 + 0.2 ∧
      (nextChord e d t).melodyOff = decide (d.melody < 0.25)) ∧
    (e.state.progressIndex ≠ 0 →
      (nextChord e d t).kickOff = e.kickOff ∧
      (nextChord e d t).snareOff = e.snareOff ∧
      (nextChord e d t).hatOff = e.hatOff ∧
      (nextChord e d t).melodyDensity = e.melodyDensity ∧
      (nextChord e d t).melodyOff = e.melodyOff) := by
  refine ⟨?_, fun h0 => nextChord_flags_zero e d t h4 h0,
    fun h0 => nextChord_flags_nonzero e d t h4 h0⟩
  have hp := runChordTicks_proj ds e h1 h2
  rw [hp.1, h3, Nat.add_mod_right, Nat.mod_eq_of_lt h1]

/-- C4 witness: eight chord ticks on the fresh 8-chord progression bring the
index back to 0. -/
theorem claim4_witness :
    readyEngine.state.progressIndex < readyEngine.state.progression.length ∧
    (runChordTicks readyEngine (List.replicate 8 (halfDraws, zeroTrans))).state.progressIndex =
      readyEngine.state.progressIndex :=
  ⟨by decide, (claim4_cycle_and_reroll readyEngine (List.replicate 8 (halfDraws, zeroTrans))
      halfDraws zeroTrans (by decide) (by decide) (by decide) (by decide)).1⟩

/-- C5 counterexample: `skip()` is not the same state change as the boundary
branch of the chord tick.  The boundary branch resets the bar counter to 0
before transitioning, while `skip()` calls `transition()` alone and leaves
the counter where it was; at bar 5 the two resulting states differ. -/
theorem claim5_counterexample :
    skip cl5e zeroTrans ≠ transition { cl5e with barCount := 0 } zeroTrans := by
  intro h
  have hb := congrArg Engine.barCount h
  rw [show skip cl5e zeroTrans = transition cl5e zeroTrans from rfl,
    transition_barCount, transition_barCount] at hb
  simp [cl5e] at hb

/-- C5 (amended): `skip()` performs exactly the transition body -- the same
key/scale/progression regeneration, mute/density re-roll and section-length
re-roll as the boundary branch, for identical draws -- but it leaves the bar
counter unchanged instead of resetting it; it coincides with the boundary
branch precisely when the bar counter is already 0. -/
theorem claim5_skip_is_transition (e : Engine) (t : TransDraws) :
    skip e t = transition e t ∧
    (skip e t).barCount = e.barCount ∧
    (e.barCount = 0 → skip e t = transition { e with barCount := 0 } t) := by
  refine ⟨rfl, ?_, ?_⟩
  · show (transition e t).barCount = e.barCount
    exact transition_barCount e t
  · intro h0
    rw [engine_barCount_eta e h0]
    rfl

/-- C5 witness: on the initial engine, whose bar counter is 0, `skip` agrees
with the boundary branch. -/
theorem claim5_witness :
    initEngine.barCount = 0 ∧
    skip initEngine zeroTrans = transition { initEngine with barCount := 0 } zeroTrans :=
  ⟨rfl, (claim5_skip_is_transition initEngine zeroTrans).2.2 rfl⟩

/-- C6: `stop()` clears the playing flag and resets the progression index and
bar counter to 0 while leaving the key and the progression contents
untouched, and a following `play()` on a non-empty progression regenerates
nothing: it resumes at index 0 with the same key and progression, playing. -/
theorem claim6_stop_play (e : Engine) (g : GenDraws) (h : e.state.progression ≠ []) :
    (stop e).state.isPlaying = false ∧
    (stop e).state.progressIndex = 0 ∧
    (stop e).barCount = 0 ∧
    (stop e).state.key = e.state.key ∧
    (stop e).state.progression = e.state.progression ∧
    (play (stop e) g).state.key = e.state.key ∧
    (play (stop e) g).state.progression = e.state.progression ∧
    (play (stop e) g).state.progressIndex = 0 ∧
    (play (stop e) g).state.isPlaying = true := by
  have hs : (stop e).state.progression = e.state.progression := by simp [stop]
  have h2 : (stop e).state.progression ≠ [] := by rw [hs]; exact h
  have hp := play_no_gen (stop e) g h2
  refine ⟨by simp [stop], by simp [stop], by simp [stop], by simp [stop], hs, ?_, ?_, ?_,
    hp.2.2.2⟩
  · rw [hp.1]; simp [stop]
  · rw [hp.2.1, hs]
  · rw [hp.2.2.1]; simp [stop]

/-- C6 witness: stop-then-play on the ready engine keeps its key and
progression and resumes at index 0. -/
theorem claim6_witness :
    readyEngine.state.progression ≠ [] ∧
    (play (stop readyEngine) ⟨0, [], 0⟩).state.key = readyEngine.state.key ∧
    (play (stop readyEngine) ⟨0, [], 0⟩).state.progressIndex = 0 ∧
    (play (stop readyEngine) ⟨0, [], 0⟩).state.isPlaying = true := by
  have h := claim6_stop_play readyEngine ⟨0, [], 0⟩ (by decide)
  exact ⟨by decide, h.2.2.2.2.2.1, h.2.2.2.2.2.2.2.1, h.2.2.2.2.2.2.2.2⟩

/-- C7 counterexample: `getState()` does not return the new swing.  Applying
two parameter sets that differ only in the danceability arm (hence in the
swing written to the transport register) yields identical `getState()`
snapshots -- the snapshot record carries no swing field -- while the
transport swings differ. -/
theorem claim7_counterexample :
    getState (applyGenerationParams initEngine cl7p1 (1/2)) =
      getState (applyGenerationParams initEngine cl7p2 (1/2)) ∧
    (applyGenerationParams initEngine cl7p1 (1/2)).transportSwing ≠
      (applyGenerationParams initEngine cl7p2 (1/2)).transportSwing := by
  constructor
  · norm_num [getState, applyGenerationParams, applyValence, applyDanceability,
      applyEnergy, applyTempo, cl7p1, cl7p2]
  · norm_num [applyGenerationParams, applyValence, applyDanceability, applyEnergy,
      applyTempo, cl7p1, cl7p2, DANCEABILITY_PARAMS]

/-- C7 (amended): for every tempo arm and every draw `r` in `[0,1)`,
`applyTempo` stores `bpm = round((min + r*(max-min)) * 2)` for the arm's
configured range -- double the sampled target-feel BPM, hence within
`[2*min, 2*max]` -- and after `applyGenerationParams` an immediate
`getState()` returns this new BPM, the transport swing register holds the new
arm's swing (it is not part of the snapshot), and the playing flag is
untouched, so playback need not be active. -/
theorem claim7_apply_tempo (e : Engine) (p : GenerationParams) (r : ℚ)
    (h0 : 0 ≤ r) (h1 : r < 1) :
    (getState (applyGenerationParams e p r)).bpm =
      jsRound ((((TEMPO_RANGES p.tempo).min : ℚ) +
        r * (((TEMPO_RANGES p.tempo).max : ℚ) - ((TEMPO_RANGES p.tempo).min : ℚ))) * 2) ∧
    2 * (TEMPO_RANGES p.tempo).min ≤ (getState (applyGenerationParams e p r)).bpm ∧
    (getState (applyGenerationParams e p r)).bpm ≤ 2 * (TEMPO_RANGES p.tempo).max ∧
    (applyGenerationParams e p r).transportSwing = (DANCEABILITY_PARAMS p.danceability).swing ∧
    (getState (applyGenerationParams e p r)).isPlaying = (getState e).isPlaying := by
  have hb : (getState (applyGenerationParams e p r)).bpm =
      jsRound ((((TEMPO_RANGES p.tempo).min : ℚ) +
        r * (((TEMPO_RANGES p.tempo).max : ℚ) - ((TEMPO_RANGES p.tempo).min : ℚ))) * 2) := by
    simp [getState, applyGenerationParams, applyValence, applyDanceability, applyEnergy,
      applyTempo]
  have hj := jsRound_bounds (tempo_min_le_max p.tempo) h0 h1
  refine ⟨hb, ?_, ?_, ?_, ?_⟩
  · rw [hb]; exact hj.1
  · rw [hb]; exact hj.2
  · simp [applyGenerationParams, applyValence, applyDanceability, applyEnergy, applyTempo]
  · simp [getState, applyGenerationParams, applyValence, applyDanceability, applyEnergy,
      applyTempo]

/-- C7 witness: the focus arm at draw one half lands in `[120, 144]`. -/
theorem claim7_witness :
    (0 ≤ (1/2 : ℚ)) ∧ ((1/2 : ℚ) < 1) ∧
    2 * (TEMPO_RANGES TempoArm.focus).min ≤
      (getState (applyGenerationParams initEngine cl7p1 (1/2))).bpm ∧
    (getState (applyGenerationParams initEngine cl7p1 (1/2))).bpm ≤
      2 * (TEMPO_RANGES TempoArm.focus).max := by
  have h := claim7_apply_tempo initEngine cl7p1 (1/2) (by norm_num) (by norm_num)
  exact ⟨by norm_num, by norm_num, h.2.1, h.2.2.1⟩

/-- C8: `initialize()` is idempotent under repeated invocation: starting from
an engine with no memoized load promise, a run of `n+1` calls starts the
`_initialize` load body exactly once and hands every caller the same memoized
promise; once that single load completes, `isLoaded` is true and stays true
through any number of further `initialize()` calls, so every caller observes
it. -/
theorem claim8_initialize_once (e : Engine) (n : Nat) (h : e.loadPromise = none) :
    (initSeq e (n + 1)).1.initCount = e.initCount + 1 ∧
    (initSeq e (n + 1)).2 = List.replicate (n + 1) e.initCount ∧
    (initSeq e (n + 1)).1.loadPromise = some e.initCount ∧
    (completeInit (initSeq e (n + 1)).1).state.isLoaded = true ∧
    ∀ m2 : Nat, (initSeq (completeInit (initSeq e (n + 1)).1) m2).1.state.isLoaded = true := by
  have hm : ({ e with loadPromise := some e.initCount, initCount := e.initCount + 1 } :
      Engine).loadPromise = some e.initCount := rfl
  have hseq : initSeq e (n + 1) =
      ({ e with loadPromise := some e.initCount, initCount := e.initCount + 1 },
        e.initCount :: List.replicate n e.initCount) := by
    simp only [initSeq]
    rw [initializeCall_fresh e h]
    simp [initSeq_memo _ e.initCount n hm]
  rw [hseq]
  refine ⟨by simp, by simp [List.replicate_succ], rfl, by simp [completeInit], ?_⟩
  intro m2
  rw [initSeq_memo _ e.initCount m2 (by simp [completeInit])]
  simp [completeInit]

/-- C8 witness: two calls on the fresh initial engine run the load body once
and return the same promise to both callers; completion flips `isLoaded`. -/
theorem claim8_witness :
    initEngine.loadPromise = none ∧
    (initSeq initEngine 2).1.initCount = 1 ∧
    (initSeq initEngine 2).2 = List.replicate 2 0 ∧
    (completeInit (initSeq initEngine 2).1).state.isLoaded = true := by
  have h := claim8_initialize_once initEngine 1 rfl
  exact ⟨rfl, h.1, h.2.1, h.2.2.2.1⟩

/-- C9: the sound-producing tick callbacks never throw; they are total
functions here, and in every exceptional situation they are no-ops returning
the state unchanged with no sound: a chord tick with an empty progression (or
out-of-range index) or with no piano sampler, a melody tick with no piano
sampler, and a melody tick whose candidate scale position would leave
`[0, scale.length)`. -/
theorem claim9_ticks_noop (e : Engine) (d : RollDraws) (t : TransDraws) (m : MelodyDraws) :
    (e.state.progression = [] → playChord e d t = (e, none)) ∧
    (e.pianoLoaded = false → playChord e d t = (e, none)) ∧
    (e.pianoLoaded = false → playMelody e m = (e, none)) ∧
    (¬(0 ≤ melodyCandidate e m ∧ melodyCandidate e m < (e.scale.length : ℤ)) →
      playMelody e m = (e, none)) := by
  refine ⟨?_, ?_, ?_, ?_⟩
  · intro h
    simp [playChord, h]
  · intro h
    rcases hq : e.state.progression.get? e.state.progressIndex with _ | c <;>
      simp [playChord, hq, h]
  · intro h
    simp [playMelody, h]
  · intro h
    simp only [playMelody]
    split
    · rfl
    · rfl

/-- C9 witness: the initial engine has no progression, so a chord tick is a
no-op. -/
theorem claim9_witness :
    initEngine.state.progression = [] ∧
    playChord initEngine halfDraws zeroTrans = (initEngine, none) :=
  ⟨rfl, (claim9_ticks_noop initEngine halfDraws zeroTrans ⟨0, 0, 0⟩).1 rfl⟩

/-- C10: `setNoiseVolume(v)` stores `max(0, min(1, v))` in the state's
`noiseVolume` field for every input, the initial value is 0.3, and no
operation of the engine writes the field any other way, so in every reachable
state the `noiseVolume` reported by `getState` lies in `[0,1]` -- even when
callers pass values outside `[0,1]` (the step for `setNoiseVolume` accepts
arbitrary rational inputs). -/
theorem claim10_noise_volume_clamped (v : ℚ) (ss : List Step) :
    (∀ e2 : Engine, (setNoiseVolume e2 v).state.noiseVolume = max 0 (min 1 v)) ∧
    initEngine.state.noiseVolume = 0.3 ∧
    0 ≤ (run initEngine ss).state.noiseVolume ∧
    (run initEngine ss).state.noiseVolume ≤ 1 := by
  have hi : NoiseInv initEngine := ⟨by norm_num [initEngine], by norm_num [initEngine]⟩
  have hr := noiseInv_run initEngine ss hi
  exact ⟨fun e2 => by simp [setNoiseVolume], rfl, hr.1, hr.2⟩

end Seedtone
